import Mathlib

/-!
Verification of the `fazer` audio-metadata extraction library (src/lib.rs).

Shallow embedding notes.
* The per-format byte-level parsers (`id3`, `mp3_metadata`, `metaflac`,
  `ogg_metadata`, `mp4parse`, `hound`) are external black-box libraries; the
  spec scopes them out.  Each is modelled as an abstract function from the
  input byte buffer to an `Option` of its structured result, bundled in the
  `Parsers` structure.  Every extractor is embedded as a function of the
  parser result(s); the byte-level extractors and the `fazer` pipeline
  compose those with the abstract parsers.
* Rust `f64` fields (`seconds`, `bitrate`, `sample_rate`) are modelled by
  `ℚ`.  All numeric facts proved below involve only values on which the
  `f64` computation is exact (small integers, division by a power of two),
  so the idealisation is faithful for these claims.
* `char::from_u32_unchecked` is modelled by the checked `Char.ofNat`; the
  safety side condition (the argument is a valid scalar value whenever the
  call is reached) is proved as a theorem.
-/

/-- The output record of src/lib.rs (struct `Metadata`).  Field defaults
mirror Rust's `..Default::default()`. -/
structure Metadata where
  artist : Option String := none
  album : Option String := none
  title : Option String := none
  seconds : Option ℚ := none
  format : String := ""
  channels : Option Nat := none
  bitrate : Option ℚ := none
  bit_depth : Option Nat := none
  sample_rate : Option ℚ := none
deriving DecidableEq, Repr

/-! ### MP3 extractor (`read_mp3`) -/

/-- Result of the black-box `id3::Tag::read_from` parse: the accessors the
code uses.  `duration` is the announced duration in milliseconds (u32). -/
structure Id3Tag where
  artist : Option String := none
  album_artist : Option String := none
  album : Option String := none
  title : Option String := none
  duration : Option Nat := none
deriving DecidableEq, Repr

/-- `mp3_metadata::ChannelType`. -/
inductive ChannelType where
  | stereo
  | jointStereo
  | dualChannel
  | singleChannel
  | unknown
deriving DecidableEq, Repr

/-- The fields of an `mp3_metadata` frame that the code reads. -/
structure Frame where
  chan_type : ChannelType
  bitrate : Nat
  sampling_freq : Nat
deriving DecidableEq, Repr

/-- One entry of `mp3_metadata`'s `optional_info` (secondary per-frame tags). -/
structure OptionalTag where
  title : Option String := none
  original_artists : List String := []
deriving DecidableEq, Repr

/-- `mp3_metadata`'s trailing ID3v1-style `tag` structure. -/
structure Mp3Tag where
  artist : String := ""
  album : String := ""
  title : String := ""
deriving DecidableEq, Repr

/-- Result of the black-box `mp3_metadata::read_from_slice` parse.
`duration` models `std::time::Duration::as_secs_f64()`. -/
structure Mp3Result where
  frames : List Frame := []
  optional_info : List OptionalTag := []
  tag : Option Mp3Tag := none
  duration : ℚ := 0
deriving DecidableEq, Repr

/-- Rust `str::trim_end_matches('\x00')`: strip every trailing NUL. -/
def trimEndNulls (s : String) : String :=
  String.mk ((s.data.reverse.dropWhile (fun c => c = '\x00')).reverse)

/-- The `for tag in res.optional_info` loop body of `read_mp3`. -/
def applyOptionalTag (m : Metadata) (tag : OptionalTag) : Metadata :=
  let m := if m.title.isNone && tag.title.isSome then { m with title := tag.title } else m
  if m.artist.isNone && !tag.original_artists.isEmpty then
    { m with artist := some (String.intercalate (", ") tag.original_artists) }
  else m

/-- The `if let Some(ref tag) = res.tag` block of `read_mp3`. -/
def applyMp3Tag (m : Metadata) (tag : Mp3Tag) : Metadata :=
  let m := if m.artist.isNone && !tag.artist.isEmpty then
    { m with artist := some (trimEndNulls tag.artist) } else m
  let m := if m.album.isNone && !tag.album.isEmpty then
    { m with album := some (trimEndNulls tag.album) } else m
  if m.title.isNone && !tag.title.isEmpty then
    { m with title := some (trimEndNulls tag.title) } else m

/-- The `if let Ok(res) = id3::Tag::read_from(..)` block of `read_mp3`:
seed artist (primary, else album-artist), album, title and seconds. -/
def applyId3 (m : Metadata) (t : Id3Tag) : Metadata :=
  let m := match t.artist with
    | some a => { m with artist := some a }
    | none => match t.album_artist with
      | some a => { m with artist := some a }
      | none => m
  let m := match t.album with
    | some al => { m with album := some al }
    | none => m
  let m := match t.title with
    | some ti => { m with title := some ti }
    | none => m
  { m with seconds := t.duration.map (fun ms => (ms : ℚ) / 1000) }

/-- The `if let Ok(res) = mp3_metadata::read_from_slice(..)` block of
`read_mp3`: first frame's channel mode / bitrate / sample rate, then the
secondary tags, then the trailing tag, then the unconditional duration
overwrite. -/
def applyMp3Frames (m : Metadata) (r : Mp3Result) : Metadata :=
  let m := match r.frames.head? with
    | none => m
    | some frame =>
      { m with
        channels := match frame.chan_type with
          | ChannelType.singleChannel => some 1
          | ChannelType.unknown => none
          | _ => some 2,
        bitrate := some ((frame.bitrate : ℚ)),
        sample_rate := some ((frame.sampling_freq : ℚ)) }
  let m := r.optional_info.foldl applyOptionalTag m
  let m := match r.tag with
    | none => m
    | some tag => applyMp3Tag m tag
  { m with seconds := some r.duration }

/-- `read_mp3` (src/lib.rs:22-88), as a function of the two black-box parse
results.  It always returns `some`. -/
def read_mp3 (id3res : Option Id3Tag) (mp3res : Option Mp3Result) : Option Metadata :=
  let m : Metadata := { format := "MP3" }
  let m := match id3res with
    | none => m
    | some t => applyId3 m t
  let m := match mp3res with
    | none => m
    | some r => applyMp3Frames m r
  some m

/-! ### FLAC extractor (`read_flac`) -/

/-- The fields of `metaflac`'s stream-info block that the code reads. -/
structure StreamInfo where
  total_samples : Nat
  sample_rate : Nat
  num_channels : Nat
deriving DecidableEq, Repr

/-- The accessors of `metaflac`'s Vorbis-comment block that the code uses;
each is an optional, possibly multi-valued list. -/
structure VorbisCommentData where
  artist : Option (List String) := none
  album_artist : Option (List String) := none
  album : Option (List String) := none
  title : Option (List String) := none
deriving DecidableEq, Repr

/-- A `metaflac::Block`; only the two kinds the code inspects are
distinguished. -/
inductive Block where
  | streamInfo (si : StreamInfo)
  | vorbisComment (c : VorbisCommentData)
  | other
deriving DecidableEq, Repr

/-- Result of the black-box `metaflac::Tag::read_from` parse. -/
structure FlacTag where
  blocks : List Block := []
deriving DecidableEq, Repr

/-- `get_comment` (src/lib.rs:91-93):
`data.map(|vec| vec.first()).unwrap_or_default()`. -/
def get_comment (data : Option (List String)) : Option String :=
  (data.map List.head?).getD none

/-- The `for block in tag.blocks()` loop body of `read_flac`. -/
def process_block (m : Metadata) : Block → Metadata
  | Block.streamInfo si =>
    { m with
      seconds := some ((si.total_samples : ℚ) / (si.sample_rate : ℚ)),
      channels := some si.num_channels }
  | Block.vorbisComment c =>
    let m := match get_comment c.artist with
      | some a => { m with artist := some a }
      | none => match get_comment c.album_artist with
        | some a => { m with artist := some a }
        | none => m
    let m := match get_comment c.album with
      | some al => { m with album := some al }
      | none => m
    match get_comment c.title with
    | some t => { m with title := some t }
    | none => m
  | Block.other => m

/-- `read_flac` (src/lib.rs:90-130), as a function of the black-box parse
result (`none` models a parse error). -/
def read_flac (tag : Option FlacTag) : Option Metadata :=
  match tag with
  | none => none
  | some tag => some (tag.blocks.foldl process_block { format := "FLAC" })

/-! ### Ogg extractor (`read_ogg`) -/

/-- The `ogg_metadata::AudioMetadata` accessors the code uses. -/
structure OggAudioMeta where
  output_channel_count : Nat
  duration : Option ℚ := none
deriving DecidableEq, Repr

/-- An `ogg_metadata::OggFormat` entry. -/
inductive OggFormat where
  | opus (m : OggAudioMeta)
  | vorbis (m : OggAudioMeta)
  | unknown
deriving DecidableEq, Repr

/-- `format_metadata` (src/lib.rs:135-144). -/
def format_metadata (m : OggAudioMeta) : Metadata :=
  { format := "OPUS",
    channels := some m.output_channel_count,
    seconds := m.duration }

/-- The `for format in res` loop of `read_ogg`. -/
def read_ogg_list : List OggFormat → Option Metadata
  | [] => none
  | OggFormat.opus m :: _ => some (format_metadata m)
  | OggFormat.vorbis m :: _ => some (format_metadata m)
  | OggFormat.unknown :: rest => read_ogg_list rest

/-- `read_ogg` (src/lib.rs:132-157), as a function of the black-box
`ogg_metadata::read_format` result (`none` models a parse error). -/
def read_ogg (res : Option (List OggFormat)) : Option Metadata :=
  match res with
  | none => none
  | some fmts => read_ogg_list fmts

/-! ### MP4 extractor (`read_mp4`) -/

/-- `mp4parse::TrackType`. -/
inductive TrackType where
  | audio
  | video
  | meta
  | unknown
deriving DecidableEq, Repr

/-- `mp4parse::CodecType`; `other` stands for every codec outside the
allow-list (the `_` arm of the match). -/
inductive CodecType where
  | mp3
  | aac
  | alac
  | av1
  | opus
  | flac
  | vp8
  | vp9
  | other
deriving DecidableEq, Repr

/-- The fields of `mp4parse::AudioSampleEntry` that the code reads. -/
structure AudioSampleEntry where
  codec_type : CodecType
  channelcount : Nat := 0
  samplerate : ℚ := 0
  samplesize : Nat := 0
deriving DecidableEq, Repr

/-- A `mp4parse::SampleEntry`. -/
inductive SampleEntry where
  | audio (entry : AudioSampleEntry)
  | other
deriving DecidableEq, Repr

/-- The `stsd` sample description box. -/
structure SampleDescription where
  descriptions : List SampleEntry := []
deriving DecidableEq, Repr

/-- The fields of `mp4parse::Track` that the code reads.  `duration` and
`timescale` are tick counts (the `.0` projections of the Rust newtypes). -/
structure Track where
  track_type : TrackType
  stsd : Option SampleDescription := none
  duration : Option Nat := none
  timescale : Option Nat := none
deriving DecidableEq, Repr

/-- Result of the black-box `mp4parse::read_mp4` parse. -/
structure MediaContext where
  tracks : List Track := []
deriving DecidableEq, Repr

/-- The codec allow-list match (src/lib.rs:184-194); `none` is the `_ =>
return None` arm, which returns from the whole of `read_mp4`. -/
def codec_format : CodecType → Option String
  | CodecType.mp3 => some "MP3"
  | CodecType.aac => some "AAC"
  | CodecType.alac => some "ALAC"
  | CodecType.av1 => some "AV1"
  | CodecType.opus => some "OPUS"
  | CodecType.flac => some "FLAC"
  | CodecType.vp8 => some "VP8"
  | CodecType.vp9 => some "VP9"
  | CodecType.other => none

/-- The `stsd.descriptions.iter().flat_map(..).next()` expression:
first audio sample entry of the description list. -/
def first_audio_entry (descs : List SampleEntry) : Option AudioSampleEntry :=
  descs.findSome? (fun d => match d with
    | SampleEntry.audio e => some e
    | SampleEntry.other => none)

/-- The `for track in &ctx.tracks` loop of `read_mp4`.  Note that the `_ =>
return None` arm of the codec match exits the whole function, so an
unsupported codec on the first audio entry found stops the scan. -/
def read_mp4_tracks : List Track → Option Metadata
  | [] => none
  | t :: ts =>
    if t.track_type ≠ TrackType.audio then read_mp4_tracks ts
    else match t.stsd with
      | none => read_mp4_tracks ts
      | some stsd => match first_audio_entry stsd.descriptions with
        | none => read_mp4_tracks ts
        | some entry => match codec_format entry.codec_type with
          | none => none
          | some fmt => some
            { format := fmt,
              channels := some entry.channelcount,
              sample_rate := some entry.samplerate,
              bit_depth := some entry.samplesize,
              seconds := match t.duration with
                | none => none
                | some d => match t.timescale with
                  | none => none
                  | some ts2 => some ((d : ℚ) / (ts2 : ℚ)) }

/-- `read_mp4` (src/lib.rs:159-212), as a function of the black-box parse
result (`none` models `ok.is_err()`). -/
def read_mp4 (ctx : Option MediaContext) : Option Metadata :=
  match ctx with
  | none => none
  | some ctx => read_mp4_tracks ctx.tracks

/-! ### WAV extractor (`read_wav`) -/

/-- The fields of `hound`'s reader that the code uses: the `WavSpec` header
fields and `duration()` (number of samples per channel). -/
structure WavInfo where
  sample_rate : Nat
  channels : Nat
  bits_per_sample : Nat
  duration : Nat := 0
deriving DecidableEq, Repr

/-- `read_wav` (src/lib.rs:214-236), as a function of the black-box
`hound::WavReader::new` result (`none` models a header parse error). -/
def read_wav (w : Option WavInfo) : Option Metadata :=
  match w with
  | none => none
  | some w => some
    { format := "WAV",
      seconds := some ((w.duration : ℚ) / (w.sample_rate : ℚ)),
      sample_rate := some ((w.sample_rate : ℚ)),
      bit_depth := some w.bits_per_sample,
      channels := some w.channels,
      bitrate := some ((w.sample_rate : ℚ) * (w.channels : ℚ) * (w.bits_per_sample : ℚ) / 1024) }

/-! ### The pipeline (`fazer`) -/

/-- The black-box byte-level parsers, abstracted as functions of the input
buffer. -/
structure Parsers where
  mp4_parse : List Nat → Option MediaContext
  ogg_parse : List Nat → Option (List OggFormat)
  flac_parse : List Nat → Option FlacTag
  wav_parse : List Nat → Option WavInfo
  id3_parse : List Nat → Option Id3Tag
  mp3_parse : List Nat → Option Mp3Result

/-- Byte-level MP4 extractor: parse, then scan tracks. -/
def read_mp4_bytes (p : Parsers) (data : List Nat) : Option Metadata :=
  read_mp4 (p.mp4_parse data)

/-- Byte-level Ogg extractor. -/
def read_ogg_bytes (p : Parsers) (data : List Nat) : Option Metadata :=
  read_ogg (p.ogg_parse data)

/-- Byte-level FLAC extractor. -/
def read_flac_bytes (p : Parsers) (data : List Nat) : Option Metadata :=
  read_flac (p.flac_parse data)

/-- Byte-level WAV extractor. -/
def read_wav_bytes (p : Parsers) (data : List Nat) : Option Metadata :=
  read_wav (p.wav_parse data)

/-- Byte-level MP3 extractor: both sub-parses are given the full buffer. -/
def read_mp3_bytes (p : Parsers) (data : List Nat) : Option Metadata :=
  read_mp3 (p.id3_parse data) (p.mp3_parse data)

/-- `fazer` (src/lib.rs:258-272): try the extractors in the fixed order
MP4, Ogg, FLAC, WAV, MP3 on the full buffer, return the first success;
`none` models the serialized `()` sentinel. -/
def fazer (p : Parsers) (data : List Nat) : Option Metadata :=
  match read_mp4_bytes p data with
  | some m => some m
  | none => match read_ogg_bytes p data with
    | some m => some m
    | none => match read_flac_bytes p data with
      | some m => some m
      | none => match read_wav_bytes p data with
        | some m => some m
        | none => read_mp3_bytes p data

/-! ### The text transform (`translate_hebrew_gibberish`) -/

/-- `LATIN_TO_HEBREW_DELTA` (src/lib.rs:240). -/
def LATIN_TO_HEBREW_DELTA : Nat := 'א'.toNat - 'à'.toNat

/-- The `is_latin1` closure (src/lib.rs:242). -/
def is_latin1 (c : Char) : Bool := 'à' ≤ c && c ≤ 'ö'

/-- The `from_latin1_to_hebrew` closure (src/lib.rs:243-244); the unchecked
construction is modelled by the checked `Char.ofNat` (see the safety
theorem below). -/
def from_latin1_to_hebrew (c : Char) : Char :=
  Char.ofNat (c.toNat + LATIN_TO_HEBREW_DELTA)

/-- The per-character map of the `.chars().map(..)` pipeline. -/
def translate_char (c : Char) : Char :=
  if !is_latin1 c then c else from_latin1_to_hebrew c

/-- `translate_hebrew_gibberish` (src/lib.rs:238-255). -/
def translate_hebrew_gibberish (data : String) : String :=
  String.mk (data.data.map translate_char)

/-! ### Concrete instances used by witnesses and counterexamples -/

/-- Parsers on which every byte-level parse fails. -/
def no_parsers : Parsers :=
  { mp4_parse := fun _ => none, ogg_parse := fun _ => none, flac_parse := fun _ => none,
    wav_parse := fun _ => none, id3_parse := fun _ => none, mp3_parse := fun _ => none }

/-- Parsers on which only the WAV parse succeeds (a CD-quality header). -/
def wav_only_parsers : Parsers :=
  { no_parsers with wav_parse := fun _ => some ⟨44100, 2, 16, 88200⟩ }

/-- An audio track whose first audio sample entry has a codec outside the
allow-list. -/
def bad_codec_track : Track :=
  { track_type := TrackType.audio,
    stsd := some ⟨[SampleEntry.audio { codec_type := CodecType.other }]⟩ }

/-- An audio track whose first audio sample entry is AAC. -/
def aac_track : Track :=
  { track_type := TrackType.audio,
    stsd := some ⟨[SampleEntry.audio { codec_type := CodecType.aac }]⟩ }

/-! ### Helper lemmas -/

theorem get_comment_eq (d : Option (List String)) : get_comment d = d.bind List.head? := by
  cases d <;> rfl

theorem read_mp3_isSome (i : Option Id3Tag) (r : Option Mp3Result) :
    (read_mp3 i r).isSome = true := rfl

theorem char_le_iff_toNat {a b : Char} : a ≤ b ↔ a.toNat ≤ b.toNat := Iff.rfl

theorem toNat_ofNat_of_valid {n : Nat} (h : n.isValidChar) :
    (Char.ofNat n).toNat = n := by
  rw [Char.ofNat, dif_pos h]; rfl

theorem is_latin1_iff_toNat {c : Char} :
    is_latin1 c = true ↔ 224 ≤ c.toNat ∧ c.toNat ≤ 246 := by
  simp only [is_latin1, Bool.and_eq_true, decide_eq_true_eq]
  exact and_congr char_le_iff_toNat char_le_iff_toNat

theorem translate_char_idem (c : Char) :
    translate_char (translate_char c) = translate_char c := by
  by_cases h : is_latin1 c
  · have hb := is_latin1_iff_toNat.mp h
    have hd : LATIN_TO_HEBREW_DELTA = 1264 := by decide
    have hvalid : (c.toNat + LATIN_TO_HEBREW_DELTA).isValidChar := by
      left; omega
    have htn : (from_latin1_to_hebrew c).toNat = c.toNat + LATIN_TO_HEBREW_DELTA := by
      rw [from_latin1_to_hebrew]
      exact toNat_ofNat_of_valid hvalid
    have hnot : is_latin1 (from_latin1_to_hebrew c) = false := by
      cases hx : is_latin1 (from_latin1_to_hebrew c) with
      | false => rfl
      | true =>
        exfalso
        have hb2 := is_latin1_iff_toNat.mp hx
        rw [htn, hd] at hb2
        omega
    simp [translate_char, h, hnot]
  · simp [translate_char, h]

theorem translate_idem_str (s : String) :
    translate_hebrew_gibberish (translate_hebrew_gibberish s) = translate_hebrew_gibberish s := by
  unfold translate_hebrew_gibberish
  congr 1
  show (s.data.map translate_char).map translate_char = s.data.map translate_char
  rw [List.map_map]
  exact List.map_congr_left (fun a _ => translate_char_idem a)

/-! ### Claim theorems -/

/-- Claim C1: the pipeline tries the extractors in the fixed order MP4, Ogg,
FLAC, WAV, MP3, each on the full buffer, and returns the first extractor's
record; in particular, when the higher-priority extractors decline and the
WAV extractor accepts (the MP3 extractor accepts every buffer), the result
has format "WAV" and never "MP3". -/
theorem fazer_priority (p : Parsers) (data : List Nat) :
    (∀ m, read_mp4_bytes p data = some m → fazer p data = some m) ∧
    (read_mp4_bytes p data = none →
      (∀ m, read_ogg_bytes p data = some m → fazer p data = some m) ∧
      (read_ogg_bytes p data = none →
        (∀ m, read_flac_bytes p data = some m → fazer p data = some m) ∧
        (read_flac_bytes p data = none →
          (∀ m, read_wav_bytes p data = some m →
            fazer p data = some m ∧ m.format = "WAV" ∧ m.format ≠ "MP3") ∧
          (read_wav_bytes p data = none → fazer p data = read_mp3_bytes p data)))) := by
  refine ⟨fun m h1 => ?_, fun h1 => ⟨fun m h2 => ?_, fun h2 => ⟨fun m h3 => ?_,
    fun h3 => ⟨fun m h4 => ⟨?_, ?_, ?_⟩, fun h4 => ?_⟩⟩⟩⟩
  · simp [fazer, h1]
  · simp [fazer, h1, h2]
  · simp [fazer, h1, h2, h3]
  · simp [fazer, h1, h2, h3, h4]
  · revert h4
    unfold read_wav_bytes read_wav
    cases p.wav_parse data with
    | none => intro h; cases h
    | some w => intro h; cases h; rfl
  · revert h4
    unfold read_wav_bytes read_wav
    cases p.wav_parse data with
    | none => intro h; cases h
    | some w => intro h; cases h; simp
  · simp [fazer, h1, h2, h3, h4]

/-- Witness for C1: with parsers on which only the WAV parse succeeds, the
pipeline returns the WAV-formatted record. -/
theorem fazer_priority_witness :
    (fazer wav_only_parsers []).map Metadata.format = some ("WAV") := by
  have h := fazer_priority wav_only_parsers []
  rcases hw : read_wav_bytes wav_only_parsers [] with _ | m
  · exact absurd hw (by decide)
  · have h4 := (((h.2 rfl).2 rfl).2 rfl).1 m hw
    rw [h4.1, Option.map_some']
    rw [h4.2.1]

/-- Claim C2: the MP3 extractor never declines; when both sub-parses fail
the record is the bare format-"MP3" record with every other field unset,
and consequently the pipeline never returns the absent sentinel. -/
theorem read_mp3_total_fallback :
    (∀ (i : Option Id3Tag) (r : Option Mp3Result), (read_mp3 i r).isSome = true) ∧
    read_mp3 none none = some { format := "MP3" } ∧
    (∀ (p : Parsers) (data : List Nat), (fazer p data).isSome = true) := by
  refine ⟨read_mp3_isSome, rfl, fun p data => ?_⟩
  unfold fazer
  cases read_mp4_bytes p data with
  | some m => rfl
  | none =>
    cases read_ogg_bytes p data with
    | some m => rfl
    | none =>
      cases read_flac_bytes p data with
      | some m => rfl
      | none =>
        cases read_wav_bytes p data with
        | some m => rfl
        | none => exact read_mp3_isSome _ _

/-- Claim C3 (counterexample): in `read_mp4`, an unsupported codec on the
first audio sample entry found does NOT let scanning continue: with a
qualifying AAC track placed after the offending track, the extractor
declines, although the AAC track alone would qualify. -/
theorem read_mp4_unsupported_codec_aborts_scan :
    read_mp4 (some ⟨[bad_codec_track, aac_track]⟩) = none ∧
    read_mp4 (some ⟨[aac_track]⟩) =
      some { format := "AAC", channels := some 0, sample_rate := some ((0 : ℚ)),
             bit_depth := some 0 } := by
  constructor <;> rfl

/-- Claim C3 (amended): when the first audio sample entry found carries a
codec outside the allow-list, `read_mp4` immediately declines (the `return
None` exits the whole function, so remaining tracks are not scanned); the
extractor never reports an unsupported-codec format value; tracks that are
non-audio, have no sample description, or have no audio sample entry are
skipped and scanning continues. -/
theorem read_mp4_codec_allowlist :
    (∀ (t : Track) (ts : List Track) (sd : SampleDescription) (e : AudioSampleEntry),
      t.track_type = TrackType.audio → t.stsd = some sd →
      first_audio_entry sd.descriptions = some e →
      codec_format e.codec_type = none →
      read_mp4_tracks (t :: ts) = none) ∧
    (∀ (ts : List Track) (m : Metadata), read_mp4_tracks ts = some m →
      m.format ∈ ["MP3", "AAC", "ALAC", "AV1", "OPUS", "FLAC", "VP8", "VP9"]) ∧
    (∀ (t : Track) (ts : List Track),
      (t.track_type ≠ TrackType.audio ∨ t.stsd = none ∨
        (∃ sd, t.stsd = some sd ∧ first_audio_entry sd.descriptions = none)) →
      read_mp4_tracks (t :: ts) = read_mp4_tracks ts) := by
  refine ⟨fun t ts sd e h1 h2 h3 h4 => ?_, fun ts => ?_, fun t ts h => ?_⟩
  · simp [read_mp4_tracks, h1, h2, h3, h4]
  · induction ts with
    | nil => intro m h; simp [read_mp4_tracks] at h
    | cons t rest ih =>
      intro m h
      rw [read_mp4_tracks] at h
      split at h
      next => exact ih m h
      next =>
        split at h
        next => exact ih m h
        next sd =>
          split at h
          next => exact ih m h
          next e he =>
            split at h
            next => cases h
            next fmt hc =>
              cases h
              revert hc
              cases e.codec_type <;> intro hc <;> cases hc <;> simp
  · rcases h with h | h | ⟨sd, hsd, he⟩
    · simp [read_mp4_tracks, h]
    · by_cases ht : t.track_type = TrackType.audio
      · simp [read_mp4_tracks, ht, h]
      · simp [read_mp4_tracks, ht]
    · by_cases ht : t.track_type = TrackType.audio
      · simp [read_mp4_tracks, ht, hsd, he]
      · simp [read_mp4_tracks, ht]

/-- Witness for C3 (amended), at the concrete offending track. -/
theorem read_mp4_codec_allowlist_witness :
    read_mp4_tracks [bad_codec_track] = none :=
  read_mp4_codec_allowlist.1 bad_codec_track []
    ⟨[SampleEntry.audio { codec_type := CodecType.other }]⟩
    { codec_type := CodecType.other } rfl rfl rfl rfl

/-- Claim C4: for a FLAC stream (stream-info block followed by a Vorbis
comment block) the artist is the first value of the primary artist comment
when that comment is present and non-empty, otherwise the first value of
the album-artist comment; album and title likewise use only the first
value of their lists. -/
theorem read_flac_first_comment_precedence (si : StreamInfo) (c : VorbisCommentData) :
    ∃ m, read_flac (some ⟨[Block.streamInfo si, Block.vorbisComment c]⟩) = some m ∧
      m.artist = (match c.artist.bind List.head? with
        | some a => some a
        | none => c.album_artist.bind List.head?) ∧
      m.album = c.album.bind List.head? ∧
      m.title = c.title.bind List.head? ∧
      m.seconds = some ((si.total_samples : ℚ) / (si.sample_rate : ℚ)) ∧
      m.channels = some si.num_channels := by
  refine ⟨_, rfl, ?_, ?_, ?_, ?_, ?_⟩ <;>
  rcases h1 : get_comment c.artist with _ | a <;>
  rcases h2 : get_comment c.album_artist with _ | a2 <;>
  rcases h3 : get_comment c.album with _ | al <;>
  rcases h4 : get_comment c.title with _ | ti <;>
  simp [read_flac, process_block, h1, h2, h3, h4, ← get_comment_eq]

/-- Claim C5: whenever the frame-level parse succeeds, the `seconds` field
of the MP3 extractor's result equals the frame-level duration, overwriting
any duration seeded by the tag-container parse. -/
theorem read_mp3_frame_duration_wins (i : Option Id3Tag) (r : Mp3Result) :
    ∃ m, read_mp3 i (some r) = some m ∧ m.seconds = some r.duration :=
  ⟨_, rfl, rfl⟩

/-- Claim C6: every record the WAV extractor returns has bitrate
`sample_rate * channels * bits_per_sample / 1024`; at 44100 Hz, 2 channels
and 16 bits this is exactly 1378.125 (and not the /1000 value 1411.2). -/
theorem read_wav_bitrate_formula :
    (∀ w : WavInfo, ∃ m, read_wav (some w) = some m ∧
      m.bitrate = some ((w.sample_rate : ℚ) * (w.channels : ℚ) * (w.bits_per_sample : ℚ) / 1024)) ∧
    (∃ m, read_wav (some ⟨44100, 2, 16, 88200⟩) = some m ∧
      m.bitrate = some ((1378.125 : ℚ)) ∧ m.bitrate ≠ some ((1411.2 : ℚ))) := by
  refine ⟨fun w => ⟨_, rfl, rfl⟩, ⟨_, rfl, ?_, ?_⟩⟩
  · show some ((44100 : Nat) * (2 : Nat) * (16 : Nat) / 1024 : ℚ) = _
    norm_num
  · intro h
    norm_num [read_wav] at h

/-- Claim C7: every record the Ogg extractor returns carries format "OPUS"
(whether the first matching logical stream is Opus or Vorbis) and leaves
artist, album, title, bitrate, bit depth and sample rate unset; when the
stream list holds no Opus or Vorbis entry the extractor declines. -/
theorem read_ogg_opus_label (fmts : List OggFormat) :
    (∀ m, read_ogg (some fmts) = some m →
      m.format = "OPUS" ∧ m.artist = none ∧ m.album = none ∧ m.title = none ∧
      m.bitrate = none ∧ m.bit_depth = none ∧ m.sample_rate = none) ∧
    ((∀ f ∈ fmts, f = OggFormat.unknown) → read_ogg (some fmts) = none) := by
  induction fmts with
  | nil => exact ⟨fun m h => by simp [read_ogg, read_ogg_list] at h, fun _ => rfl⟩
  | cons f rest ih =>
    cases f with
    | opus om =>
      refine ⟨fun m h => ?_, fun hall => ?_⟩
      · simp only [read_ogg, read_ogg_list, Option.some.injEq] at h
        subst h
        exact ⟨rfl, rfl, rfl, rfl, rfl, rfl, rfl⟩
      · exact absurd (hall _ (List.mem_cons_self _ _)) (by simp)
    | vorbis om =>
      refine ⟨fun m h => ?_, fun hall => ?_⟩
      · simp only [read_ogg, read_ogg_list, Option.some.injEq] at h
        subst h
        exact ⟨rfl, rfl, rfl, rfl, rfl, rfl, rfl⟩
      · exact absurd (hall _ (List.mem_cons_self _ _)) (by simp)
    | unknown =>
      refine ⟨fun m h => ih.1 m h, fun hall => ?_⟩
      exact ih.2 (fun f hf => hall f (List.mem_cons_of_mem _ hf))

/-- Witness for C7: a Vorbis stream is reported with format "OPUS" and only
channels and seconds populated. -/
theorem read_ogg_opus_label_witness :
    (format_metadata ⟨2, some 3⟩).format = "OPUS" ∧
    (format_metadata ⟨2, some 3⟩).artist = none ∧
    (format_metadata ⟨2, some 3⟩).album = none ∧
    (format_metadata ⟨2, some 3⟩).title = none ∧
    (format_metadata ⟨2, some 3⟩).bitrate = none ∧
    (format_metadata ⟨2, some 3⟩).bit_depth = none ∧
    (format_metadata ⟨2, some 3⟩).sample_rate = none :=
  (read_ogg_opus_label [OggFormat.vorbis ⟨2, some 3⟩]).1 (format_metadata ⟨2, some 3⟩) rfl

/-- Claim C8: the text transform shifts every character in the Latin-1
sub-range from 'à' through 'ö' by the fixed delta into the Hebrew block,
leaves every other character unchanged, maps the two test strings as the
tests state, and is idempotent. -/
theorem translate_hebrew_gibberish_spec :
    (∀ c : Char, 'à' ≤ c → c ≤ 'ö' →
      translate_char c = Char.ofNat (c.toNat + ('א'.toNat - 'à'.toNat))) ∧
    (∀ c : Char, ¬('à' ≤ c ∧ c ≤ 'ö') → translate_char c = c) ∧
    translate_hebrew_gibberish ("ðåòí áðàé - hello") = "נועם בנאי - hello" ∧
    translate_hebrew_gibberish ("noam") = "noam" ∧
    (∀ s : String, translate_hebrew_gibberish (translate_hebrew_gibberish s) =
      translate_hebrew_gibberish s) := by
  refine ⟨fun c h1 h2 => ?_, fun c hn => ?_, by decide, by decide, translate_idem_str⟩
  · have hl : is_latin1 c = true := by
      simp only [is_latin1, Bool.and_eq_true, decide_eq_true_eq]
      exact ⟨h1, h2⟩
    simp only [translate_char, hl, Bool.not_true, Bool.false_eq_true, if_false,
      from_latin1_to_hebrew, LATIN_TO_HEBREW_DELTA]
  · cases hx : is_latin1 c with
    | false => simp only [translate_char, hx, Bool.not_false, if_true]
    | true =>
      exact absurd (by simpa [is_latin1] using hx) hn

/-- Witness for C8 at the concrete character 'à'. -/
theorem translate_hebrew_gibberish_spec_witness :
    translate_char 'à' = Char.ofNat ('à'.toNat + ('א'.toNat - 'à'.toNat)) :=
  translate_hebrew_gibberish_spec.1 'à' (by decide) (by decide)

/-- Claim C9: the pipeline is a pure function of the parser family and the
input bytes; two calls on identical byte sequences yield identical results
(there is no hidden or shared state in the embedding). -/
theorem fazer_deterministic (p : Parsers) (d1 d2 : List Nat) (h : d1 = d2) :
    fazer p d1 = fazer p d2 := by
  rw [h]

/-- Witness for C9 at a concrete parser family and buffer. -/
theorem fazer_deterministic_witness :
    fazer no_parsers [0, 1, 2] = fazer no_parsers [0, 1, 2] :=
  fazer_deterministic no_parsers [0, 1, 2] [0, 1, 2] rfl

/-- Claim C10: for every character in the 'à'..'ö' range the shifted code
point is a valid Unicode scalar value lying in the Hebrew block (1488 to
1510, far from the surrogate range), the (modelled) unchecked conversion
really yields that code point, and the transform preserves character
count.  Outside that range the conversion is never reached (see the
unchanged-character part of the C8 theorem). -/
theorem translate_unchecked_safety :
    (∀ c : Char, is_latin1 c = true →
      Nat.isValidChar (c.toNat + LATIN_TO_HEBREW_DELTA) ∧
      1488 ≤ c.toNat + LATIN_TO_HEBREW_DELTA ∧ c.toNat + LATIN_TO_HEBREW_DELTA ≤ 1510 ∧
      (from_latin1_to_hebrew c).toNat = c.toNat + LATIN_TO_HEBREW_DELTA) ∧
    (∀ s : String, (translate_hebrew_gibberish s).length = s.length) := by
  refine ⟨fun c h => ?_, fun s => ?_⟩
  · have hb := is_latin1_iff_toNat.mp h
    have hd : LATIN_TO_HEBREW_DELTA = 1264 := by decide
    have hvalid : (c.toNat + LATIN_TO_HEBREW_DELTA).isValidChar := by
      left; omega
    refine ⟨hvalid, by omega, by omega, ?_⟩
    rw [from_latin1_to_hebrew]
    exact toNat_ofNat_of_valid hvalid
  · unfold translate_hebrew_gibberish
    show (s.data.map translate_char).length = s.data.length
    exact List.length_map _ _

/-- Witness for C10 at the concrete character 'à'. -/
theorem translate_unchecked_safety_witness :
    Nat.isValidChar ('à'.toNat + LATIN_TO_HEBREW_DELTA) ∧
    1488 ≤ 'à'.toNat + LATIN_TO_HEBREW_DELTA ∧ 'à'.toNat + LATIN_TO_HEBREW_DELTA ≤ 1510 ∧
    (from_latin1_to_hebrew 'à').toNat = 'à'.toNat + LATIN_TO_HEBREW_DELTA :=
  translate_unchecked_safety.1 'à' (by decide)
